import Mathlib

/-!
Verification of the emcache cache engine and wire transport.

The cache engine is embedded from `src/storage/cache.rs`.  Keys are byte
sequences (`List Nat`), values carry a byte payload plus `flags`, `exptime`
and `atime` metadata.  Wall-clock instants (`f64` seconds in the source) are
modelled as rationals; every operation that consults the clock takes the
call instant `now` as an explicit argument.  The storage `HashMap` is
modelled as an association list; a Rust `unwrap` that could panic is
modelled by an `Option` result, `none` standing for the panic.
-/

set_option autoImplicit false

namespace Emcache

/-- A stored value: owned byte payload plus metadata, from `storage/value.rs`
as described by the spec (flags, absolute `exptime`, last-access `atime`). -/
structure Value where
  data : List Nat
  flags : Nat
  exptime : ℚ
  atime : ℚ
deriving Repr, DecidableEq

/-- Payload byte length of a value (`Value::len`). -/
def Value.len (v : Value) : Nat := v.data.length

/-- `Value::touch`: set `atime` to the current instant. -/
def Value.touch (v : Value) (now : ℚ) : Value := { v with atime := now }

/-- The cache error taxonomy from `storage/errors.rs`. -/
inductive CacheError where
  | KeyNotFound
  | KeyTooLong
  | ValueTooLong
  | CapacityExceeded
deriving Repr, DecidableEq

/-- First-match lookup in the association list modelling the storage map. -/
def assoc_get (k : List Nat) : List (List Nat × Value) → Option Value
  | [] => none
  | (k2, v) :: rest => if k2 = k then some v else assoc_get k rest

/-- Remove the first binding of `k` (models `HashMap::remove`). -/
def assoc_remove (k : List Nat) : List (List Nat × Value) → List (List Nat × Value)
  | [] => []
  | (k2, v) :: rest => if k2 = k then rest else (k2, v) :: assoc_remove k rest

/-- Insert-or-replace the binding of `k` (models `HashMap::insert` and the
in-place update performed through `get_mut`). -/
def assoc_insert (k : List Nat) (v : Value) : List (List Nat × Value) → List (List Nat × Value)
  | [] => [(k, v)]
  | (k2, v2) :: rest =>
    if k2 = k then (k, v) :: rest else (k2, v2) :: assoc_insert k v rest

/-- The cache structure from `storage/cache.rs`: configuration plus storage. -/
structure Cache where
  capacity : Nat
  item_lifetime : ℚ
  key_maxlen : Nat
  value_maxlen : Nat
  storage : List (List Nat × Value)
deriving Repr, DecidableEq

/-- `Cache::new(capacity)` with the source defaults. -/
def Cache.new (capacity : Nat) : Cache :=
  { capacity := capacity
    item_lifetime := -1
    key_maxlen := 250
    value_maxlen := 1048576
    storage := [] }

/-- Builder-style setter `Cache::with_item_lifetime`. -/
def Cache.with_item_lifetime (c : Cache) (l : ℚ) : Cache := { c with item_lifetime := l }

/-- Builder-style setter `Cache::with_key_maxlen`. -/
def Cache.with_key_maxlen (c : Cache) (n : Nat) : Cache := { c with key_maxlen := n }

/-- Builder-style setter `Cache::with_value_maxlen`. -/
def Cache.with_value_maxlen (c : Cache) (n : Nat) : Cache := { c with value_maxlen := n }

/-- `Cache::check_key_len`. -/
def check_key_len (c : Cache) (k : List Nat) : Bool := decide (k.length ≤ c.key_maxlen)

/-- `Cache::check_value_len`. -/
def check_value_len (c : Cache) (v : Value) : Bool := decide (v.len ≤ c.value_maxlen)

/-- `Cache::value_is_alive`, with `now` the instant returned by
`time_now_utc()` during the call. -/
def value_is_alive (c : Cache) (v : Value) (now : ℚ) : Bool :=
  if 0 < v.exptime then
    if now < v.exptime then true else false
  else if c.item_lifetime < 0 then true
  else decide (now < v.atime + c.item_lifetime)

/-- `Cache::remove`: private helper, fails with `KeyNotFound`. -/
def Cache.remove (c : Cache) (k : List Nat) : Except CacheError Cache :=
  match assoc_get k c.storage with
  | some _ => Except.ok { c with storage := assoc_remove k c.storage }
  | none => Except.error CacheError.KeyNotFound

/-- `Cache::len`: number of entries currently in storage. -/
def Cache.len (c : Cache) : Nat := c.storage.length

/-- `Cache::get`.  The result pairs the returned `CacheResult` with the
post-state; the outer `Option` models the two `unwrap` calls in the source
(`self.remove(key).unwrap()` on the dead branch and
`self.storage.get_mut(key).unwrap()` on the alive branch), `none` standing
for a panic. -/
def Cache.get (c : Cache) (k : List Nat) (now : ℚ) :
    Option (Except CacheError Value × Cache) :=
  if ¬ check_key_len c k then some (Except.error CacheError.KeyTooLong, c)
  else
    match assoc_get k c.storage with
    | none => some (Except.error CacheError.KeyNotFound, c)
    | some v =>
      if value_is_alive c v now then
        match assoc_get k c.storage with
        | some v0 =>
          some (Except.ok (v0.touch now),
                { c with storage := assoc_insert k (v0.touch now) c.storage })
        | none => none
      else
        match Cache.remove c k with
        | Except.ok c2 => some (Except.error CacheError.KeyNotFound, c2)
        | Except.error _ => none

/-- `Cache::contains_key`: implemented via `get`. -/
def Cache.contains_key (c : Cache) (k : List Nat) (now : ℚ) :
    Option (Except CacheError Bool × Cache) :=
  match Cache.get c k now with
  | none => none
  | some (Except.ok _, c2) => some (Except.ok true, c2)
  | some (Except.error CacheError.KeyNotFound, c2) => some (Except.ok false, c2)
  | some (Except.error e, c2) => some (Except.error e, c2)

/-- `Cache::set`. -/
def Cache.set (c : Cache) (k : List Nat) (v : Value) (now : ℚ) :
    Except CacheError Cache :=
  if ¬ check_key_len c k then Except.error CacheError.KeyTooLong
  else if ¬ check_value_len c v then Except.error CacheError.ValueTooLong
  else if assoc_get k c.storage = none ∧ c.storage.length = c.capacity then
    Except.error CacheError.CapacityExceeded
  else
    Except.ok { c with storage := assoc_insert k (v.touch now) c.storage }

/-- Run a sequence of `set` operations; a failing `set` leaves the cache
unchanged, as in the source where an `Err` return does not mutate storage. -/
def exec_sets (c : Cache) : List (List Nat × Value × ℚ) → Cache
  | [] => c
  | (k, v, t) :: rest =>
    match Cache.set c k v t with
    | Except.ok c2 => exec_sets c2 rest
    | Except.error _ => exec_sets c rest

/-- The liveness predicate exactly as the specification words it (three
cases, `exptime` first). -/
def alive_spec (item_lifetime : ℚ) (v : Value) (now : ℚ) : Bool :=
  if 0 < v.exptime then decide (now < v.exptime)
  else if item_lifetime < 0 then true
  else decide (now < v.atime + item_lifetime)

-- Basic association-list lemmas.

theorem assoc_remove_length {k : List Nat} {st : List (List Nat × Value)} {v : Value}
    (h : assoc_get k st = some v) :
    (assoc_remove k st).length + 1 = st.length := by
  induction st with
  | nil => simp [assoc_get] at h
  | cons p rest ih =>
    obtain ⟨k2, v2⟩ := p
    by_cases hk : k2 = k
    · simp [assoc_remove, hk]
    · simp [assoc_get, hk] at h
      simp [assoc_remove, hk, ih h]

theorem assoc_get_insert_self (k : List Nat) (v : Value) (st : List (List Nat × Value)) :
    assoc_get k (assoc_insert k v st) = some v := by
  induction st with
  | nil => simp [assoc_insert, assoc_get]
  | cons p rest ih =>
    obtain ⟨k2, v2⟩ := p
    by_cases hk : k2 = k
    · simp [assoc_insert, hk, assoc_get]
    · simp [assoc_insert, hk, assoc_get, ih]

theorem assoc_get_insert_other {k k2 : List Nat} (v : Value) (st : List (List Nat × Value))
    (h : k2 ≠ k) :
    assoc_get k2 (assoc_insert k v st) = assoc_get k2 st := by
  induction st with
  | nil =>
    have hne : ¬ k = k2 := fun hh => h hh.symm
    simp [assoc_insert, assoc_get, hne]
  | cons p rest ih =>
    obtain ⟨k3, v3⟩ := p
    by_cases hk : k3 = k
    · subst hk
      have hne : ¬ k3 = k2 := fun hh => h hh.symm
      simp [assoc_insert, assoc_get, hne]
    · simp [assoc_insert, hk, assoc_get]
      by_cases hk2 : k3 = k2
      · simp [hk2]
      · simp [hk2, ih]

-- Claim C1: the `get` contract.

/-- C1: for every key `k`, `cache.get k` fails with `KeyTooLong` when
`k.len > key_maxlen`; fails with `KeyNotFound` when `k` is absent; when `k`
is present but dead at the call instant it removes the entry (so `cache.len`
decreases by one) and fails with `KeyNotFound`; and when `k` is present and
alive it updates the entry's `atime` to the call instant and returns the
stored value. -/
theorem C1_get_contract (c : Cache) (k : List Nat) (now : ℚ) :
    (c.key_maxlen < k.length →
      Cache.get c k now = some (Except.error CacheError.KeyTooLong, c)) ∧
    (k.length ≤ c.key_maxlen → assoc_get k c.storage = none →
      Cache.get c k now = some (Except.error CacheError.KeyNotFound, c)) ∧
    (∀ v : Value, k.length ≤ c.key_maxlen → assoc_get k c.storage = some v →
      value_is_alive c v now = false →
      Cache.get c k now =
        some (Except.error CacheError.KeyNotFound,
              { c with storage := assoc_remove k c.storage }) ∧
      Cache.len { c with storage := assoc_remove k c.storage } + 1 = Cache.len c) ∧
    (∀ v : Value, k.length ≤ c.key_maxlen → assoc_get k c.storage = some v →
      value_is_alive c v now = true →
      Cache.get c k now =
        some (Except.ok (v.touch now),
              { c with storage := assoc_insert k (v.touch now) c.storage }) ∧
      (v.touch now).atime = now ∧ (v.touch now).data = v.data ∧
      (v.touch now).flags = v.flags) := by
  refine ⟨?_, ?_, ?_, ?_⟩
  · intro h
    simp [Cache.get, check_key_len, Nat.not_le.2 h]
  · intro h1 h2
    simp [Cache.get, check_key_len, h1, h2]
  · intro v h1 h2 h3
    refine ⟨?_, ?_⟩
    · simp [Cache.get, check_key_len, h1, h2, h3, Cache.remove]
    · simpa [Cache.len] using assoc_remove_length h2
  · intro v h1 h2 h4
    exact ⟨by simp [Cache.get, check_key_len, h1, h2, h4], rfl, rfl, rfl⟩

/-- Concrete cache used to instantiate C1: one entry for key `x` (byte 120)
that never expires. -/
def c1_value : Value := { data := [97, 98], flags := 7, exptime := 0, atime := 0 }

/-- Cache state holding `c1_value` under key `x`, default configuration. -/
def c1_cache : Cache :=
  { capacity := 10, item_lifetime := -1, key_maxlen := 250, value_maxlen := 1048576,
    storage := [([120], c1_value)] }

/-- Witness for C1 at a concrete alive entry. -/
theorem C1_get_contract_witness :
    Cache.get c1_cache [120] 5 =
      some (Except.ok (c1_value.touch 5),
            { c1_cache with
                storage := assoc_insert [120] (c1_value.touch 5) c1_cache.storage }) :=
  ((C1_get_contract c1_cache [120] 5).2.2.2 c1_value (by decide) (by rfl) (by decide)).1

-- Claim C2: the `set` error taxonomy.

/-- C2 counterexample input: a cache configured with `key_maxlen = 0` and
`capacity = 0` through the source's builder setters. -/
def c2_cache : Cache := Cache.with_key_maxlen (Cache.new 0) 0

/-- One-byte value used in the C2 counterexample. -/
def c2_value : Value := { data := [97], flags := 0, exptime := 0, atime := 0 }

/-- C2 counterexample: the claim says `set` fails with `CapacityExceeded`
iff `cache.len = capacity` and the key is absent; here both hold, yet `set`
fails with `KeyTooLong` because the key-length gate is checked first. -/
theorem C2_counterexample :
    Cache.len c2_cache = c2_cache.capacity ∧
    assoc_get [120] c2_cache.storage = none ∧
    Cache.set c2_cache [120] c2_value 0 = Except.error CacheError.KeyTooLong ∧
    Cache.set c2_cache [120] c2_value 0 ≠ Except.error CacheError.CapacityExceeded := by
  refine ⟨rfl, rfl, ?_, ?_⟩
  · simp [Cache.set, check_key_len, c2_cache, c2_value, Cache.new, Cache.with_key_maxlen]
  · simp [Cache.set, check_key_len, c2_cache, c2_value, Cache.new, Cache.with_key_maxlen]

/-- C2 amended: `set` fails with `KeyTooLong` iff `k.len > key_maxlen`; with
`ValueTooLong` iff `v.len > value_maxlen` and the key gate passed; with
`CapacityExceeded` iff both size gates passed, the key is absent and
`cache.len = capacity`; in particular overwriting an existing key never
fails with `CapacityExceeded`. -/
theorem C2_set_errors (c : Cache) (k : List Nat) (v : Value) (now : ℚ) :
    (Cache.set c k v now = Except.error CacheError.KeyTooLong ↔
      c.key_maxlen < k.length) ∧
    (Cache.set c k v now = Except.error CacheError.ValueTooLong ↔
      k.length ≤ c.key_maxlen ∧ c.value_maxlen < v.len) ∧
    (Cache.set c k v now = Except.error CacheError.CapacityExceeded ↔
      k.length ≤ c.key_maxlen ∧ v.len ≤ c.value_maxlen ∧
        assoc_get k c.storage = none ∧ Cache.len c = c.capacity) ∧
    (assoc_get k c.storage ≠ none →
      Cache.set c k v now ≠ Except.error CacheError.CapacityExceeded) := by
  by_cases hk : k.length ≤ c.key_maxlen
  · by_cases hv : v.len ≤ c.value_maxlen
    · by_cases hc : assoc_get k c.storage = none ∧ c.storage.length = c.capacity
      · simp [Cache.set, check_key_len, check_value_len, hk, hv, hc, Cache.len,
          Nat.not_lt.2 hk, Nat.not_lt.2 hv, hc.1, hc.2]
      · simp [Cache.set, check_key_len, check_value_len, hk, hv, hc, Cache.len,
          Nat.not_lt.2 hk, Nat.not_lt.2 hv]
    · simp [Cache.set, check_key_len, check_value_len, hk, hv, Cache.len,
        Nat.not_le.1 hv, Nat.not_lt.2 hk]
  · simp [Cache.set, check_key_len, check_value_len, hk, Cache.len, Nat.not_le.1 hk]

/-- Witness for C2 amended: a full new cache of capacity zero rejects a
fresh key with `CapacityExceeded`. -/
theorem C2_set_errors_witness :
    Cache.set (Cache.new 0) [120] c2_value 0 =
      Except.error CacheError.CapacityExceeded :=
  ((C2_set_errors (Cache.new 0) [120] c2_value 0).2.2.1).mpr
    ⟨by decide, by decide, by rfl, by rfl⟩

-- Claim C3: the liveness predicate.

/-- C3: `value_is_alive` coincides with the specification's three-case
liveness predicate, and whenever `exptime > 0` the result is exactly
`exptime > now`, independent of the idle-lifetime rule. -/
theorem C3_liveness (c : Cache) (v : Value) (now : ℚ) :
    value_is_alive c v now = alive_spec c.item_lifetime v now ∧
    (0 < v.exptime → value_is_alive c v now = decide (now < v.exptime)) := by
  constructor
  · unfold value_is_alive alive_spec
    by_cases h : 0 < v.exptime
    · by_cases h2 : now < v.exptime <;> simp [h, h2]
    · simp [h]
  · intro h
    by_cases h2 : now < v.exptime <;> simp [value_is_alive, h, h2]

/-- Value used to instantiate C3: `exptime` set in the future. -/
def c3_value : Value := { data := [97], flags := 0, exptime := 10, atime := 0 }

/-- Witness for C3: for an entry with `exptime = 10`, liveness at instant 5
is decided by `exptime > now` alone even though `item_lifetime` is 0. -/
theorem C3_liveness_witness :
    value_is_alive (Cache.with_item_lifetime (Cache.new 1) 0) c3_value 5 =
      decide ((5 : ℚ) < 10) :=
  (C3_liveness (Cache.with_item_lifetime (Cache.new 1) 0) c3_value 5).2 (by decide)

-- Inversion and preservation lemmas for `set` sequences.

theorem set_ok_inv {c c2 : Cache} {k : List Nat} {v : Value} {now : ℚ}
    (h : Cache.set c k v now = Except.ok c2) :
    c2 = { c with storage := assoc_insert k (v.touch now) c.storage } ∧
    k.length ≤ c.key_maxlen := by
  unfold Cache.set at h
  by_cases hk : check_key_len c k
  · by_cases hv : check_value_len c v
    · by_cases hc : assoc_get k c.storage = none ∧ c.storage.length = c.capacity
      · simp [hk, hv, hc] at h
      · simp [hk, hv, hc] at h
        exact ⟨h.symm, by simpa [check_key_len] using hk⟩
    · simp [hk, hv] at h
  · simp [hk] at h

theorem exec_sets_config (c : Cache) (ops : List (List Nat × Value × ℚ)) :
    (exec_sets c ops).key_maxlen = c.key_maxlen ∧
    (exec_sets c ops).item_lifetime = c.item_lifetime := by
  induction ops generalizing c with
  | nil => exact ⟨rfl, rfl⟩
  | cons op rest ih =>
    obtain ⟨k, v, t⟩ := op
    simp only [exec_sets]
    cases hset : Cache.set c k v t with
    | ok c2 =>
      obtain ⟨hc2, -⟩ := set_ok_inv hset
      subst hc2
      simpa using ih _
    | error e => exact ih c

theorem exec_sets_get_other (k : List Nat) (c : Cache)
    (ops : List (List Nat × Value × ℚ)) (h : ∀ op ∈ ops, op.1 ≠ k) :
    assoc_get k (exec_sets c ops).storage = assoc_get k c.storage := by
  induction ops generalizing c with
  | nil => rfl
  | cons op rest ih =>
    obtain ⟨k2, v, t⟩ := op
    have hk2 : k2 ≠ k := h (k2, v, t) (by simp)
    have hrest : ∀ op ∈ rest, op.1 ≠ k := fun op hop => h op (List.mem_cons_of_mem _ hop)
    simp only [exec_sets]
    cases hset : Cache.set c k2 v t with
    | ok c2 =>
      obtain ⟨hc2, -⟩ := set_ok_inv hset
      subst hc2
      rw [ih _ hrest]
      simpa using assoc_get_insert_other (v.touch t) c.storage (fun hh => hk2 hh.symm)
    | error e => exact ih c hrest

-- Claim C4: set followed by get round-trips payload and flags.

/-- C4: if a `set` of key `k` succeeded, later `set`s touch only other keys,
and the stored entry is still alive at the instant of the `get`, then the
`get` succeeds and returns exactly the payload and flags supplied to that
last `set` of `k`. -/
theorem C4_set_get_roundtrip (c : Cache) (k : List Nat) (v : Value) (t now : ℚ)
    (ops : List (List Nat × Value × ℚ)) (c2 : Cache)
    (hset : Cache.set c k v t = Except.ok c2)
    (hops : ∀ op ∈ ops, op.1 ≠ k)
    (halive : value_is_alive (exec_sets c2 ops) (v.touch t) now = true) :
    ∃ w : Value, ∃ c4 : Cache,
      Cache.get (exec_sets c2 ops) k now = some (Except.ok w, c4) ∧
      w.data = v.data ∧ w.flags = v.flags := by
  obtain ⟨hc2, hklen⟩ := set_ok_inv hset
  have hget : assoc_get k (exec_sets c2 ops).storage = some (v.touch t) := by
    rw [exec_sets_get_other k c2 ops hops, hc2]
    simpa using assoc_get_insert_self k (v.touch t) c.storage
  have hklen2 : k.length ≤ (exec_sets c2 ops).key_maxlen := by
    rw [(exec_sets_config c2 ops).1, hc2]
    exact hklen
  refine ⟨(v.touch t).touch now,
    { exec_sets c2 ops with
        storage := assoc_insert k ((v.touch t).touch now) (exec_sets c2 ops).storage },
    ?_, rfl, rfl⟩
  simp [Cache.get, check_key_len, hklen2, hget, halive]

/-- Value stored by the last `set` of key `x` in the C4 witness. -/
def c4_value : Value := { data := [97, 98, 99], flags := 3, exptime := 0, atime := 0 }

/-- A value stored under a different key after the `set` of `x`. -/
def c4_value2 : Value := { data := [100], flags := 0, exptime := 0, atime := 0 }

/-- Cache state right after a successful `set x` on a fresh cache. -/
def c4_cache2 : Cache :=
  { capacity := 10, item_lifetime := -1, key_maxlen := 250, value_maxlen := 1048576,
    storage := [([120], c4_value.touch 0)] }

/-- Witness for C4: set `x`, then set `y`, then get `x` at instant 5. -/
theorem C4_set_get_roundtrip_witness :
    ∃ w : Value, ∃ c4 : Cache,
      Cache.get (exec_sets c4_cache2 [([121], c4_value2, 1)]) [120] 5 =
        some (Except.ok w, c4) ∧
      w.data = c4_value.data ∧ w.flags = c4_value.flags :=
  C4_set_get_roundtrip (Cache.new 10) [120] c4_value 0 5 [([121], c4_value2, 1)]
    c4_cache2 (by rfl) (by decide) (by decide)

-- Claim C9: contains_key touches the entry just as get does.

/-- C9: on a key bound to an alive entry, `contains_key` answers `Ok true`
and leaves the cache in exactly the state `get` would leave it in: the
entry's `atime` becomes the call instant while its payload, flags and
`exptime`, and every other entry, are unchanged. -/
theorem C9_contains_key_touches (c : Cache) (k : List Nat) (v : Value) (now : ℚ)
    (hk : k.length ≤ c.key_maxlen) (hv : assoc_get k c.storage = some v)
    (ha : value_is_alive c v now = true) :
    Cache.contains_key c k now =
      some (Except.ok true,
            { c with storage := assoc_insert k (v.touch now) c.storage }) ∧
    Cache.get c k now =
      some (Except.ok (v.touch now),
            { c with storage := assoc_insert k (v.touch now) c.storage }) ∧
    (v.touch now).atime = now ∧ (v.touch now).data = v.data ∧
    (v.touch now).flags = v.flags ∧ (v.touch now).exptime = v.exptime ∧
    (∀ k2, k2 ≠ k →
      assoc_get k2 (assoc_insert k (v.touch now) c.storage) = assoc_get k2 c.storage) := by
  have hget : Cache.get c k now =
      some (Except.ok (v.touch now),
            { c with storage := assoc_insert k (v.touch now) c.storage }) := by
    simp [Cache.get, check_key_len, hk, hv, ha]
  refine ⟨?_, hget, rfl, rfl, rfl, rfl, ?_⟩
  · simp [Cache.contains_key, hget]
  · intro k2 hne
    exact assoc_get_insert_other _ _ hne

/-- Entry used to instantiate C9. -/
def c9_value : Value := { data := [104, 105], flags := 2, exptime := 0, atime := 1 }

/-- Cache with one alive entry under key `x` and an idle lifetime of 100. -/
def c9_cache : Cache :=
  { capacity := 5, item_lifetime := 100, key_maxlen := 250, value_maxlen := 1048576,
    storage := [([120], c9_value)] }

/-- Witness for C9 at instant 50: the idle clock of the entry is reset. -/
theorem C9_contains_key_touches_witness :
    Cache.contains_key c9_cache [120] 50 =
      some (Except.ok true,
            { c9_cache with
                storage := assoc_insert [120] (c9_value.touch 50) c9_cache.storage }) :=
  (C9_contains_key_touches c9_cache [120] c9_value 50 (by decide) (by rfl)
    (by norm_num [value_is_alive, c9_cache, c9_value])).1

-- Claim C10: the unwraps inside get cannot panic.

/-- C10: `Cache.get` never reaches a panicking `unwrap`: on the dead branch
the key was just found so the internal `remove` cannot return `KeyNotFound`,
and on the alive branch the `get_mut` re-lookup cannot miss.  In the
embedding a panic is the `none` result, so `get` always returns `some`. -/
theorem C10_get_no_panic (c : Cache) (k : List Nat) (now : ℚ) :
    ∃ r : Except CacheError Value × Cache, Cache.get c k now = some r := by
  unfold Cache.get
  by_cases hk : check_key_len c k
  · cases hv : assoc_get k c.storage with
    | none => simp [hk, hv]
    | some v =>
      by_cases ha : value_is_alive c v now
      · simp [hk, hv, ha]
      · simp [hk, hv, ha, Cache.remove]
  · simp [hk]

/-!
The wire transport.  The implementation file of `TcpTransport` is not among
the sources, only its test-suite is, so the definitions below are modelled
from the specification (sections 4.2 and 4.3) and pinned at every point the
tests constrain: `test_read_line_ok`, `test_read_line_invalid_newline_marker`,
`test_read_line_too_long`, `test_read_cmd_malterminated`,
`test_read_cmd_set_under_size`, `test_read_cmd_set_over_size`,
`test_write_resp_value` and the rest of `tcp_transport/tests.rs`.
The incoming stream is a list of bytes; reading consumes a prefix.
-/

/-- The transport error taxonomy from the spec, section 7. -/
inductive TcpTransportError where
  | StreamReadError
  | StreamWriteError
  | LineReadError
  | Utf8Error
  | NumberParseError
  | InvalidCmd
  | CommandParseError
deriving Repr, DecidableEq

/-- Modelled from the spec: `read_bytes(n)` of the missing transport
implementation; reads exactly `n` bytes, failing with `StreamReadError`
when the stream ends first. -/
def read_bytes (n : Nat) (s : List Nat) :
    Except TcpTransportError (List Nat × List Nat) :=
  if n ≤ s.length then Except.ok (s.take n, s.drop n)
  else Except.error TcpTransportError.StreamReadError

/-- Modelled from the spec: the byte-scanning loop of `read_line` of the
missing transport implementation.  Bytes are consumed one at a time; the
accumulated line ends at the first CR LF pair; once `maxlen` bytes have
been consumed without completing a CR LF the read fails with
`LineReadError`; a read past the end of the stream fails with
`StreamReadError` (test_read_cmd_malterminated pins this:  a lone LF is an
ordinary content byte, the scan keeps looking for CR LF past it). -/
def read_line_go (maxlen : Nat) : Nat → List Nat → Except TcpTransportError (List Nat × List Nat)
  | _, [] => Except.error TcpTransportError.StreamReadError
  | len, b :: rest =>
    if b = 13 ∧ rest.head? = some 10 then
      if maxlen ≤ len + 1 then Except.error TcpTransportError.LineReadError
      else Except.ok ([], rest.tail)
    else if maxlen ≤ len + 1 then Except.error TcpTransportError.LineReadError
    else
      match read_line_go maxlen (len + 1) rest with
      | Except.ok (content, r) => Except.ok (b :: content, r)
      | Except.error e => Except.error e

/-- Modelled from the spec: `read_line(max_len)` reads at most `max_len`
bytes including the trailing CR LF and returns the bytes strictly before
the CR LF together with the unconsumed remainder of the stream. -/
def read_line (maxlen : Nat) (s : List Nat) :
    Except TcpTransportError (List Nat × List Nat) :=
  read_line_go maxlen 0 s

/-- Modelled from the spec: `parse_word` splits on the first 0x20 byte; the
remainder keeps the space, as `test_parse_word_split` shows. -/
def parse_word : List Nat → List Nat × List Nat
  | [] => ([], [])
  | b :: rest =>
    if b = 32 then ([], b :: rest)
    else
      let p := parse_word rest
      (b :: p.1, p.2)

/-- Digit-accumulating loop of `as_number`. -/
def as_number_go : Nat → List Nat → Except TcpTransportError Nat
  | acc, [] => Except.ok acc
  | acc, b :: rest =>
    if 48 ≤ b ∧ b ≤ 57 then as_number_go (acc * 10 + (b - 48)) rest
    else Except.error TcpTransportError.NumberParseError

/-- Modelled from the spec: `as_number` parses an ASCII decimal unsigned
integer bounded by the requested width, failing with `NumberParseError` on
any non-digit byte or on overflow. -/
def as_number (maxval : Nat) (bs : List Nat) : Except TcpTransportError Nat :=
  if bs = [] then Except.error TcpTransportError.NumberParseError
  else
    match as_number_go 0 bs with
    | Except.ok n =>
      if n ≤ maxval then Except.ok n
      else Except.error TcpTransportError.NumberParseError
    | Except.error e => Except.error e

/-- Largest `u16` value, the width of `flags`. -/
def u16_max : Nat := 65535

/-- Largest `u32` value, the width of `exptime` and `bytes`. -/
def u32_max : Nat := 4294967295

/-- A UTF-8 continuation byte. -/
def utf8_cont (b : Nat) : Bool := decide (128 ≤ b ∧ b ≤ 191)

/-- Modelled from the spec: strict UTF-8 validity of a byte sequence, as
`as_string` requires (RFC 3629 ranges, overlongs and surrogates rejected). -/
def utf8_valid : List Nat → Bool
  | [] => true
  | b :: rest =>
    if b ≤ 127 then utf8_valid rest
    else if 194 ≤ b ∧ b ≤ 223 then
      match rest with
      | b2 :: r => utf8_cont b2 && utf8_valid r
      | [] => false
    else if 224 ≤ b ∧ b ≤ 239 then
      match rest with
      | b2 :: b3 :: r =>
        (if b = 224 then decide (160 ≤ b2 ∧ b2 ≤ 191)
         else if b = 237 then decide (128 ≤ b2 ∧ b2 ≤ 159)
         else utf8_cont b2) && utf8_cont b3 && utf8_valid r
      | _ => false
    else if 240 ≤ b ∧ b ≤ 244 then
      match rest with
      | b2 :: b3 :: b4 :: r =>
        (if b = 240 then decide (144 ≤ b2 ∧ b2 ≤ 191)
         else if b = 244 then decide (128 ≤ b2 ∧ b2 ≤ 143)
         else utf8_cont b2) && utf8_cont b3 && utf8_cont b4 && utf8_valid r
      | _ => false
    else false

/-- The command ADT from the spec, section 4.3. -/
inductive Cmd where
  | Stats
  | Get (key : List Nat)
  | Set (key : List Nat) (flags : Nat) (data : List Nat)
deriving Repr, DecidableEq

/-- Bound on the first command line, spec section 4.3 step 1: an
implementation-chosen constant at least the longest `set` header plus
`key_maxlen`. -/
def cmd_line_maxlen : Nat := 300

/-- Modelled from the spec: the payload phase of `set` parsing - after the
header line, read exactly `count` payload bytes, then two bytes that must
be exactly CR LF, else `CommandParseError`. -/
def read_set_payload (key : List Nat) (flags count : Nat) (s : List Nat) :
    Except TcpTransportError Cmd :=
  match read_bytes count s with
  | Except.error e => Except.error e
  | Except.ok (payload, s2) =>
    match read_bytes 2 s2 with
    | Except.error e => Except.error e
    | Except.ok (ender, _) =>
      if ender = [13, 10] then Except.ok (Cmd.Set key flags payload)
      else Except.error TcpTransportError.CommandParseError

/-- The single 0x20 separating two tokens, spec section 4.3: the remainder
produced by `parse_word` must start with a space for another token to
follow. -/
def expect_space (l : List Nat) : Option (List Nat) :=
  if l.head? = some 32 then some l.tail else none

/-- Modelled from the spec: the dispatch of `read_cmd` on an already-read
command line - split the verb, then `stats` takes no arguments, `get` one
key token, `set` four tokens followed by the payload bytes read from the
remaining stream `rest`. -/
def parse_cmd_line (line rest : List Nat) : Except TcpTransportError Cmd :=
  let pv := parse_word line
  if pv.1 = [115, 116, 97, 116, 115] then
    if pv.2 = [] then Except.ok Cmd.Stats
    else Except.error TcpTransportError.CommandParseError
  else if pv.1 = [103, 101, 116] then
    match expect_space pv.2 with
    | none => Except.error TcpTransportError.CommandParseError
    | some r2 =>
      let pk := parse_word r2
      if pk.1 ≠ [] ∧ pk.2 = [] then
        if utf8_valid pk.1 then Except.ok (Cmd.Get pk.1)
        else Except.error TcpTransportError.Utf8Error
      else Except.error TcpTransportError.CommandParseError
  else if pv.1 = [115, 101, 116] then
    match expect_space pv.2 with
    | none => Except.error TcpTransportError.CommandParseError
    | some r2 =>
      let pk := parse_word r2
      match expect_space pk.2 with
      | none => Except.error TcpTransportError.CommandParseError
      | some r4 =>
        let pf := parse_word r4
        match expect_space pf.2 with
        | none => Except.error TcpTransportError.CommandParseError
        | some r6 =>
          let pe := parse_word r6
          match expect_space pe.2 with
          | none => Except.error TcpTransportError.CommandParseError
          | some r8 =>
            let pc := parse_word r8
            if pk.1 ≠ [] ∧ pc.2 = [] then
              if utf8_valid pk.1 then
                match as_number u16_max pf.1 with
                | Except.error e => Except.error e
                | Except.ok flags =>
                  match as_number u32_max pe.1 with
                  | Except.error e => Except.error e
                  | Except.ok _ =>
                    match as_number u32_max pc.1 with
                    | Except.error e => Except.error e
                    | Except.ok count => read_set_payload pk.1 flags count rest
              else Except.error TcpTransportError.Utf8Error
            else Except.error TcpTransportError.CommandParseError
  else Except.error TcpTransportError.InvalidCmd

/-- Modelled from the spec: `read_cmd` - read one command line bounded by
`cmd_line_maxlen`, then dispatch on it. -/
def read_cmd (s : List Nat) : Except TcpTransportError Cmd :=
  match read_line cmd_line_maxlen s with
  | Except.error e => Except.error e
  | Except.ok (line, rest) => parse_cmd_line line rest

/-- ASCII decimal rendering of a natural number, with explicit fuel so the
definition reduces by `rfl`. -/
def natDigits_go : Nat → Nat → List Nat
  | 0, _ => []
  | fuel + 1, n =>
    if n < 10 then [48 + n]
    else natDigits_go fuel (n / 10) ++ [48 + n % 10]

/-- ASCII decimal rendering of a natural number. -/
def natDigits (n : Nat) : List Nat := natDigits_go (n + 1) n

/-- A value as carried by a `Resp`: key, flags and payload
(`protocol/cmd.rs` `Value`). -/
structure RespValue where
  key : List Nat
  flags : Nat
  data : List Nat
deriving Repr, DecidableEq

/-- The response ADT from the spec, section 4.4. -/
inductive Resp where
  | Error
  | ClientError (msg : List Nat)
  | ServerError (msg : List Nat)
  | Stored
  | NotStored
  | NotFound
  | Value (v : RespValue)
  | Values (vs : List RespValue)
  | Stats (stats : List (List Nat × List Nat))
deriving Repr, DecidableEq

/-- Bytes of one `VALUE <key> <flags> <bytes>` CR LF `<payload>` CR LF
block. -/
def value_block (v : RespValue) : List Nat :=
  [86, 65, 76, 85, 69, 32] ++ v.key ++ [32] ++ natDigits v.flags ++ [32] ++
    natDigits v.data.length ++ [13, 10] ++ v.data ++ [13, 10]

/-- Modelled from the spec: the canonical bytes of each `Resp` variant
(spec section 4.4), with the `Value` case pinned by `test_write_resp_value`,
which expects a single VALUE block with no trailing END line. -/
def resp_bytes : Resp → List Nat
  | Resp.Error => [69, 82, 82, 79, 82, 13, 10]
  | Resp.ClientError m =>
    [67, 76, 73, 69, 78, 84, 95, 69, 82, 82, 79, 82, 32] ++ m ++ [13, 10]
  | Resp.ServerError m =>
    [83, 69, 82, 86, 69, 82, 95, 69, 82, 82, 79, 82, 32] ++ m ++ [13, 10]
  | Resp.Stored => [83, 84, 79, 82, 69, 68, 13, 10]
  | Resp.NotStored => [78, 79, 84, 95, 83, 84, 79, 82, 69, 68, 13, 10]
  | Resp.NotFound => [78, 79, 84, 95, 70, 79, 85, 78, 68, 13, 10]
  | Resp.Value v => value_block v
  | Resp.Values vs => (vs.map value_block).flatten ++ [69, 78, 68, 13, 10]
  | Resp.Stats stats =>
    (stats.map (fun p => p.1 ++ [32] ++ p.2 ++ [13, 10])).flatten ++ [69, 78, 68, 13, 10]

/-- Write-side transport state: the in-memory outgoing buffer and the bytes
already sent over the stream. -/
structure WriteState where
  buffer : List Nat
  sent : List Nat
deriving Repr, DecidableEq

/-- Modelled from the spec: `write_bytes` appends to the outgoing buffer
and returns the number of bytes appended. -/
def write_bytes (w : WriteState) (bs : List Nat) : WriteState × Nat :=
  ({ w with buffer := w.buffer ++ bs }, bs.length)

/-- Modelled from the spec: `flush_writes` drains the outgoing buffer to
the stream in one write and empties it. -/
def flush_writes (w : WriteState) : WriteState :=
  { buffer := [], sent := w.sent ++ w.buffer }

/-- Modelled from the spec: `write_resp` renders the variant into the
outgoing buffer and then calls `flush_writes`. -/
def write_resp (w : WriteState) (r : Resp) : WriteState :=
  flush_writes (write_bytes w (resp_bytes r)).1

-- Lemmas about the read_line scan.

/-- Whether a byte list contains a CR LF pair. -/
def hasCRLF : List Nat → Bool
  | [] => false
  | b :: rest => decide (b = 13 ∧ rest.head? = some 10) || hasCRLF rest

theorem hasCRLF_cons_false {b : Nat} {rest : List Nat}
    (h : hasCRLF (b :: rest) = false) :
    ¬(b = 13 ∧ rest.head? = some 10) ∧ hasCRLF rest = false := by
  simpa [hasCRLF] using h

theorem hasCRLF_of_no_lf {l : List Nat} (h : ∀ b ∈ l, b ≠ 10) :
    hasCRLF l = false := by
  induction l with
  | nil => rfl
  | cons b rest ih =>
    have h1 : ∀ x ∈ rest, x ≠ 10 := fun x hx => h x (List.mem_cons_of_mem _ hx)
    have h2 : ¬(b = 13 ∧ rest.head? = some 10) := by
      rintro ⟨-, hh⟩
      cases rest with
      | nil => simp at hh
      | cons c r =>
        have hc : c = 10 := by simpa using hh
        exact h1 c (by simp) hc
    simp [hasCRLF, h2, ih h1]

theorem pair_cond_false_term {b : Nat} {bs tail : List Nat}
    (hno : hasCRLF (b :: bs) = false) :
    ¬(b = 13 ∧ (bs ++ 13 :: 10 :: tail).head? = some 10) := by
  rintro ⟨hb, hh⟩
  cases bs with
  | nil => simp at hh
  | cons c cs =>
    have hc : c = 10 := by simpa using hh
    exact (hasCRLF_cons_false hno).1 ⟨hb, by simp [hc]⟩

theorem read_line_go_ok (content : List Nat) (maxlen len : Nat) (rest : List Nat)
    (hno : hasCRLF content = false) (hlen : len + content.length + 2 ≤ maxlen) :
    read_line_go maxlen len (content ++ 13 :: 10 :: rest) = Except.ok (content, rest) := by
  induction content generalizing len with
  | nil =>
    have h2 : ¬ maxlen ≤ len + 1 := by simp at hlen; omega
    simp [read_line_go, h2]
  | cons b bs ih =>
    have hcond := (hasCRLF_cons_false hno).1
    have hlen2 : len + 1 + bs.length + 2 ≤ maxlen := by simp at hlen; omega
    have h2 : ¬ maxlen ≤ len + 1 := by omega
    simp [read_line_go, hcond, h2, ih (len + 1) (hasCRLF_cons_false hno).2 hlen2]

theorem read_line_go_too_long (content : List Nat) (maxlen len : Nat) (rest : List Nat)
    (hno : hasCRLF content = false) (hlen : maxlen ≤ len + content.length + 1) :
    read_line_go maxlen len (content ++ 13 :: 10 :: rest) =
      Except.error TcpTransportError.LineReadError := by
  induction content generalizing len with
  | nil =>
    have h2 : maxlen ≤ len + 1 := by simp at hlen; omega
    simp [read_line_go, h2]
  | cons b bs ih =>
    have hcond := (hasCRLF_cons_false hno).1
    by_cases h2 : maxlen ≤ len + 1
    · simp [read_line_go, hcond, h2]
    · simp [read_line_go, hcond, h2,
        ih (len + 1) (hasCRLF_cons_false hno).2 (by simp at hlen; omega)]

theorem read_line_go_ok_inv (s : List Nat) (maxlen len : Nat) (content rest : List Nat)
    (h : read_line_go maxlen len s = Except.ok (content, rest)) :
    s = content ++ 13 :: 10 :: rest ∧ len + content.length + 2 ≤ maxlen := by
  induction s generalizing len content rest with
  | nil => simp [read_line_go] at h
  | cons b s2 ih =>
    simp only [read_line_go] at h
    by_cases hc : b = 13 ∧ s2.head? = some 10
    · rw [if_pos hc] at h
      by_cases h2 : maxlen ≤ len + 1
      · rw [if_pos h2] at h
        exact absurd h (by simp)
      · rw [if_neg h2] at h
        obtain ⟨hb, hh⟩ := hc
        cases s2 with
        | nil => simp at hh
        | cons c cs =>
          have hc10 : c = 10 := by simpa using hh
          simp only [List.tail_cons] at h
          simp only [Except.ok.injEq, Prod.mk.injEq] at h
          obtain ⟨h3, h4⟩ := h
          subst h3; subst h4; subst hb; subst hc10
          refine ⟨rfl, ?_⟩
          simp only [List.length_nil]
          omega
    · rw [if_neg hc] at h
      by_cases h2 : maxlen ≤ len + 1
      · rw [if_pos h2] at h
        exact absurd h (by simp)
      · rw [if_neg h2] at h
        cases hrec : read_line_go maxlen (len + 1) s2 with
        | error e => rw [hrec] at h; exact absurd h (by simp)
        | ok p =>
          obtain ⟨c2, r2⟩ := p
          rw [hrec] at h
          simp only [Except.ok.injEq, Prod.mk.injEq] at h
          obtain ⟨h4, h5⟩ := h
          subst h4; subst h5
          obtain ⟨hs, hl⟩ := ih (len + 1) c2 r2 hrec
          subst hs
          refine ⟨by simp, ?_⟩
          simp only [List.length_cons]
          omega

-- Claim C5: read_line length bounds.

/-- C5: `read_line(max_len)` consumes at most `max_len` bytes including the
trailing CR LF and on success returns exactly the bytes strictly before the
CR LF (third conjunct, an inversion); an input of `max_len - 2` content
bytes followed by CR LF succeeds, while `max_len - 1` content bytes
followed by CR LF fails with `LineReadError`. -/
theorem C5_read_line_bounds (maxlen : Nat) (content rest : List Nat)
    (hno : hasCRLF content = false) :
    (content.length + 2 ≤ maxlen →
      read_line maxlen (content ++ 13 :: 10 :: rest) = Except.ok (content, rest)) ∧
    (maxlen = content.length + 1 →
      read_line maxlen (content ++ 13 :: 10 :: rest) =
        Except.error TcpTransportError.LineReadError) ∧
    (∀ s contentOut restOut : List Nat,
      read_line maxlen s = Except.ok (contentOut, restOut) →
      s = contentOut ++ 13 :: 10 :: restOut ∧ contentOut.length + 2 ≤ maxlen) := by
  refine ⟨?_, ?_, ?_⟩
  · intro h
    exact read_line_go_ok content maxlen 0 rest hno (by omega)
  · intro h
    exact read_line_go_too_long content maxlen 0 rest hno (by omega)
  · intro s contentOut restOut h
    simpa using read_line_go_ok_inv s maxlen 0 contentOut restOut h

/-- Witness for C5 at `max_len = 3`: one content byte plus CR LF succeeds
(the `test_read_line_ok` vector), while at `max_len = 2` the same input is
one content byte too long and fails with `LineReadError`. -/
theorem C5_read_line_bounds_witness :
    read_line 3 [93, 13, 10] = Except.ok ([93], []) ∧
    read_line 2 [93, 13, 10] = Except.error TcpTransportError.LineReadError :=
  ⟨(C5_read_line_bounds 3 [93] [] (by rfl)).1 (by decide),
   (C5_read_line_bounds 2 [93] [] (by rfl)).2.1 (by decide)⟩

-- Claim C6: bare LF handling.

/-- C6 counterexample: the input `[10, 13, 10]` contains a LF byte that is
not preceded by a CR, yet `read_line 5` succeeds (returning the bare LF as
content) instead of failing with `LineReadError`: a bare LF does not by
itself abort the line scan. -/
theorem C6_counterexample :
    read_line 5 [10, 13, 10] = Except.ok ([10], []) ∧
    read_line 5 [10, 13, 10] ≠ Except.error TcpTransportError.LineReadError := by
  refine ⟨rfl, ?_⟩
  intro h
  have h2 : read_line 5 [10, 13, 10] = Except.ok ([10], []) := rfl
  rw [h] at h2
  exact Except.noConfusion h2

theorem pair_cond_false_lf {b : Nat} {bs : List Nat}
    (hno : hasCRLF (b :: bs ++ [10]) = false) :
    ¬(b = 13 ∧ (bs.head? = some 10 ∨ bs = [])) := by
  rintro ⟨hb, hor⟩
  have h1 := (hasCRLF_cons_false
    (show hasCRLF (b :: (bs ++ [10])) = false by simpa using hno)).1
  rcases hor with hh | hh
  · cases bs with
    | nil => simp at hh
    | cons c cs =>
      have hc : c = 10 := by simpa using hh
      exact h1 ⟨hb, by simp [hc]⟩
  · subst hh
    exact h1 ⟨hb, by simp⟩

theorem read_line_go_lf_too_long (content : List Nat) (maxlen len : Nat)
    (hno : hasCRLF (content ++ [10]) = false)
    (hlen : maxlen ≤ len + content.length + 1) :
    read_line_go maxlen len (content ++ [10]) =
      Except.error TcpTransportError.LineReadError := by
  induction content generalizing len with
  | nil =>
    have h2 : maxlen ≤ len + 1 := by simp at hlen; omega
    simp [read_line_go, h2]
  | cons b bs ih =>
    have hcond := pair_cond_false_lf hno
    have htl : hasCRLF (bs ++ [10]) = false :=
      (hasCRLF_cons_false (show hasCRLF (b :: (bs ++ [10])) = false by simpa using hno)).2
    by_cases h2 : maxlen ≤ len + 1
    · simp [read_line_go, hcond, h2]
    · simp [read_line_go, hcond, h2, ih (len + 1) htl (by simp at hlen; omega)]

theorem read_line_go_lf_stream_end (content : List Nat) (maxlen len : Nat)
    (hno : hasCRLF (content ++ [10]) = false)
    (hlen : len + content.length + 1 < maxlen) :
    read_line_go maxlen len (content ++ [10]) =
      Except.error TcpTransportError.StreamReadError := by
  induction content generalizing len with
  | nil =>
    have h2 : ¬ maxlen ≤ len + 1 := by simp at hlen; omega
    simp [read_line_go, h2]
  | cons b bs ih =>
    have hcond := pair_cond_false_lf hno
    have htl : hasCRLF (bs ++ [10]) = false :=
      (hasCRLF_cons_false (show hasCRLF (b :: (bs ++ [10])) = false by simpa using hno)).2
    have h2 : ¬ maxlen ≤ len + 1 := by simp at hlen; omega
    simp [read_line_go, hcond, h2, ih (len + 1) htl (by simp at hlen; omega)]

/-- C6 amended: a LF not preceded by CR is consumed as ordinary content and
the scan keeps looking for a CR LF pair.  An input that ends in a bare LF
therefore fails, but the error depends on the length bound: `LineReadError`
when the bound is exhausted at or before the LF (the
`test_read_line_invalid_newline_marker` vector), and `StreamReadError` when
the stream ends while the bound still allows reading (the behaviour
`test_read_cmd_malterminated` observes through `read_cmd`). -/
theorem C6_bare_lf (maxlen : Nat) (content : List Nat)
    (hno : hasCRLF (content ++ [10]) = false) :
    (maxlen ≤ content.length + 1 →
      read_line maxlen (content ++ [10]) =
        Except.error TcpTransportError.LineReadError) ∧
    (content.length + 1 < maxlen →
      read_line maxlen (content ++ [10]) =
        Except.error TcpTransportError.StreamReadError) := by
  constructor
  · intro h
    exact read_line_go_lf_too_long content maxlen 0 hno (by omega)
  · intro h
    exact read_line_go_lf_stream_end content maxlen 0 hno (by omega)

/-- Witness for C6 amended: the two test vectors `[93, 10]` with
`max_len = 2` (LineReadError) and the line of `stats\n` with the command
bound (StreamReadError). -/
theorem C6_bare_lf_witness :
    read_line 2 [93, 10] = Except.error TcpTransportError.LineReadError ∧
    read_line 300 [115, 116, 97, 116, 115, 10] =
      Except.error TcpTransportError.StreamReadError :=
  ⟨(C6_bare_lf 2 [93] (by rfl)).1 (by decide),
   (C6_bare_lf 300 [115, 116, 97, 116, 115] (by rfl)).2 (by decide)⟩

-- Lemmas for the set command size-mismatch claim.

theorem as_number_go_digits {bs : List Nat} {acc n : Nat}
    (h : as_number_go acc bs = Except.ok n) : ∀ b ∈ bs, 48 ≤ b ∧ b ≤ 57 := by
  induction bs generalizing acc with
  | nil => simp
  | cons b rest ih =>
    intro x hx
    simp only [as_number_go] at h
    by_cases hb : 48 ≤ b ∧ b ≤ 57
    · rw [if_pos hb] at h
      rcases List.mem_cons.1 hx with h1 | h1
      · subst h1; exact hb
      · exact ih h x h1
    · rw [if_neg hb] at h
      exact absurd h (by simp)

theorem as_number_digits {maxv : Nat} {bs : List Nat} {n : Nat}
    (h : as_number maxv bs = Except.ok n) : ∀ b ∈ bs, 48 ≤ b ∧ b ≤ 57 := by
  unfold as_number at h
  by_cases he : bs = []
  · subst he; simp
  · rw [if_neg he] at h
    cases hg : as_number_go 0 bs with
    | ok m =>
      exact as_number_go_digits hg
    | error e =>
      rw [hg] at h
      exact absurd h (by simp)

theorem parse_word_no_space {l : List Nat} (h : ∀ b ∈ l, b ≠ 32) :
    parse_word l = (l, []) := by
  induction l with
  | nil => rfl
  | cons b rest ih =>
    have hb : ¬ b = 32 := h b (by simp)
    simp [parse_word, hb, ih (fun x hx => h x (List.mem_cons_of_mem _ hx))]

theorem parse_word_append_space (l1 l2 : List Nat) (h : ∀ b ∈ l1, b ≠ 32) :
    parse_word (l1 ++ 32 :: l2) = (l1, 32 :: l2) := by
  induction l1 with
  | nil => simp [parse_word]
  | cons b rest ih =>
    have hb : ¬ b = 32 := h b (by simp)
    simp [parse_word, hb, ih (fun x hx => h x (List.mem_cons_of_mem _ hx))]

theorem read_set_payload_cases (key : List Nat) (flags count : Nat) (body : List Nat) :
    (body.length < count + 2 →
      read_set_payload key flags count body =
        Except.error TcpTransportError.StreamReadError) ∧
    (count + 2 ≤ body.length → (body.drop count).take 2 ≠ [13, 10] →
      read_set_payload key flags count body =
        Except.error TcpTransportError.CommandParseError) ∧
    (count + 2 ≤ body.length → (body.drop count).take 2 = [13, 10] →
      read_set_payload key flags count body =
        Except.ok (Cmd.Set key flags (body.take count))) := by
  refine ⟨?_, ?_, ?_⟩
  · intro h
    by_cases hc : count ≤ body.length
    · have h2 : ¬ 2 ≤ body.length - count := by omega
      simp [read_set_payload, read_bytes, hc, h2]
    · simp [read_set_payload, read_bytes, hc]
  · intro h hne
    have hc : count ≤ body.length := by omega
    have h2 : 2 ≤ body.length - count := by omega
    simp [read_set_payload, read_bytes, hc, h2, hne]
  · intro h heq
    have hc : count ≤ body.length := by omega
    have h2 : 2 ≤ body.length - count := by omega
    simp [read_set_payload, read_bytes, hc, h2, heq]

/-- The stream of a `set x 0 0 <count>` command followed by `body`. -/
def set_x_stream (cb body : List Nat) : List Nat :=
  [115, 101, 116, 32, 120, 32, 48, 32, 48, 32] ++ cb ++ 13 :: 10 :: body

theorem read_cmd_of_read_line {s line rest : List Nat}
    (h : read_line cmd_line_maxlen s = Except.ok (line, rest)) :
    read_cmd s = parse_cmd_line line rest := by
  unfold read_cmd
  rw [h]

theorem read_cmd_set_header (cb body : List Nat) (count : Nat)
    (hcount : as_number u32_max cb = Except.ok count)
    (hlen : cb.length + 12 ≤ cmd_line_maxlen) :
    read_cmd (set_x_stream cb body) = read_set_payload [120] 0 count body := by
  have hdig := as_number_digits hcount
  have hno10 : ∀ b ∈ [115, 101, 116, 32, 120, 32, 48, 32, 48, 32] ++ cb, b ≠ 10 := by
    intro b hb
    rcases List.mem_append.1 hb with h1 | h1
    · fin_cases h1 <;> decide
    · have := hdig b h1
      omega
  have hnospace : ∀ b ∈ cb, b ≠ 32 := by
    intro b hb
    have := hdig b hb
    omega
  have hcrlf : hasCRLF ([115, 101, 116, 32, 120, 32, 48, 32, 48, 32] ++ cb) = false :=
    hasCRLF_of_no_lf hno10
  have hline : read_line cmd_line_maxlen (set_x_stream cb body) =
      Except.ok ([115, 101, 116, 32, 120, 32, 48, 32, 48, 32] ++ cb, body) := by
    have := read_line_go_ok ([115, 101, 116, 32, 120, 32, 48, 32, 48, 32] ++ cb)
      cmd_line_maxlen 0 body hcrlf (by simp [cmd_line_maxlen] at hlen ⊢; omega)
    simpa [set_x_stream, read_line] using this
  rw [read_cmd_of_read_line hline]
  have hpv : parse_word (115 :: 101 :: 116 :: 32 :: 120 :: 32 :: 48 :: 32 :: 48 :: 32 :: cb) =
      ([115, 101, 116], 32 :: 120 :: 32 :: 48 :: 32 :: 48 :: 32 :: cb) := by
    simpa using parse_word_append_space [115, 101, 116]
      (120 :: 32 :: 48 :: 32 :: 48 :: 32 :: cb) (by decide)
  have hpk : parse_word (120 :: 32 :: 48 :: 32 :: 48 :: 32 :: cb) =
      ([120], 32 :: 48 :: 32 :: 48 :: 32 :: cb) := by
    simpa using parse_word_append_space [120] (48 :: 32 :: 48 :: 32 :: cb) (by decide)
  have hpf : parse_word (48 :: 32 :: 48 :: 32 :: cb) = ([48], 32 :: 48 :: 32 :: cb) := by
    simpa using parse_word_append_space [48] (48 :: 32 :: cb) (by decide)
  have hpe : parse_word (48 :: 32 :: cb) = ([48], 32 :: cb) := by
    simpa using parse_word_append_space [48] cb (by decide)
  have hpc : parse_word cb = (cb, []) := parse_word_no_space hnospace
  have hes : ∀ l : List Nat, expect_space (32 :: l) = some l := by
    intro l
    simp [expect_space]
  have hfl : as_number u16_max [48] = Except.ok 0 := by rfl
  have hex : as_number u32_max [48] = Except.ok 0 := by rfl
  have hutf : utf8_valid [120] = true := by rfl
  simp [parse_cmd_line, hpv, hpk, hpf, hpe, hpc, hes, hfl, hex, hutf, hcount]

-- Claim C7: set size mismatches.

/-- C7: when parsing a `set` command with declared byte-count `count`,
after reading exactly `count` payload bytes: if the stream ends before
`count + 2` bytes are available the parse fails with `StreamReadError`
(over-size case); if the two bytes after the payload are not exactly CR LF
the parse fails with `CommandParseError` (under-size case). -/
theorem C7_set_size_mismatch (cb body : List Nat) (count : Nat)
    (hcount : as_number u32_max cb = Except.ok count)
    (hlen : cb.length + 12 ≤ cmd_line_maxlen) :
    (body.length < count + 2 →
      read_cmd (set_x_stream cb body) =
        Except.error TcpTransportError.StreamReadError) ∧
    (count + 2 ≤ body.length → (body.drop count).take 2 ≠ [13, 10] →
      read_cmd (set_x_stream cb body) =
        Except.error TcpTransportError.CommandParseError) := by
  rw [read_cmd_set_header cb body count hcount hlen]
  exact ⟨(read_set_payload_cases [120] 0 count body).1,
    (read_set_payload_cases [120] 0 count body).2.1⟩

/-- Witness for C7: the two test vectors - `set x 0 0 2` against payload
`abc` CR LF fails with `CommandParseError`, `set x 0 0 4` against the same
stream fails with `StreamReadError`. -/
theorem C7_set_size_mismatch_witness :
    read_cmd (set_x_stream [50] [97, 98, 99, 13, 10]) =
      Except.error TcpTransportError.CommandParseError ∧
    read_cmd (set_x_stream [52] [97, 98, 99, 13, 10]) =
      Except.error TcpTransportError.StreamReadError :=
  ⟨(C7_set_size_mismatch [50] [97, 98, 99, 13, 10] 2 (by rfl) (by decide)).2
      (by decide) (by decide),
   (C7_set_size_mismatch [52] [97, 98, 99, 13, 10] 4 (by rfl) (by decide)).1
      (by decide)⟩

-- Claim C8: write_resp of a Value response.

/-- C8 counterexample: `write_resp` on `Value (key x, flags 0, payload abc)`
sends exactly `VALUE x 0 3` CR LF `abc` CR LF - the bytes the repository
test `test_write_resp_value` expects - and not the claimed form with a
trailing `END` CR LF. -/
theorem C8_counterexample :
    (write_resp { buffer := [], sent := [] }
        (Resp.Value { key := [120], flags := 0, data := [97, 98, 99] })).sent =
      [86, 65, 76, 85, 69, 32, 120, 32, 48, 32, 51, 13, 10, 97, 98, 99, 13, 10] ∧
    (write_resp { buffer := [], sent := [] }
        (Resp.Value { key := [120], flags := 0, data := [97, 98, 99] })).sent ≠
      [86, 65, 76, 85, 69, 32, 120, 32, 48, 32, 51, 13, 10, 97, 98, 99, 13, 10,
       69, 78, 68, 13, 10] :=
  ⟨rfl, by decide⟩

/-- C8 amended: for every value `v`, `write_resp (Resp.Value v)` flushes to
the stream exactly the bytes `VALUE <key> <flags> <bytes>` CR LF followed by
the payload and CR LF, with no trailing `END` line (the `END` terminator
belongs to the `Values` and `Stats` forms), leaving the outgoing buffer
empty. -/
theorem C8_write_resp_value (w : WriteState) (v : RespValue) :
    write_resp w (Resp.Value v) =
      { buffer := [],
        sent := w.sent ++ w.buffer ++
          ([86, 65, 76, 85, 69, 32] ++ v.key ++ [32] ++ natDigits v.flags ++ [32] ++
            natDigits v.data.length ++ [13, 10] ++ v.data ++ [13, 10]) } := by
  simp [write_resp, write_bytes, flush_writes, resp_bytes, value_block,
    List.append_assoc]

end Emcache
